import Mathlib

/-
Verification of mimi.py: a poll loop that fetches recent last.fm tracks,
resolves each to a YouTube URL (two-tier fallback), and enqueues the URLs
into VLC's playlist via a telnet rc connection.

Shallow embedding conventions:
- Network interactions (page fetches, search API calls) are inputs, bundled
  in a `World`. A call that can raise a Python exception (network failure,
  parse failure, IndexError, ...) is modelled in `Except Unit`:
  `Except.error ()` is an uncaught exception propagating out of the call.
- A last.fm track object is a `Track`; `track.artist` stands for the
  Python `track['artist']['#text']` field and `track.uts` for
  `int(track['date']['uts'])`.
- The xpath query `(//@data-youtube-url)[last()]` is modelled on the list
  of `data-youtube-url` attribute values of the fetched page in document
  order: it returns the singleton list holding the last value, or [].
- The search response `req.json()['items']` is a list where each entry is
  the item's `id` object, collapsed to `Option String`: `some v` when the
  object contains `videoId: v`, `none` otherwise. Indexing past the end of
  the list is Python's IndexError, i.e. `Except.error ()`.
- The VLC rc connection records the messages written on it while open;
  `__exit__` closes it (`telnet = None`). `load_tracks` is instrumented to
  return the sequence of enqueue calls as (track, url) pairs: the sink
  only observes the urls, the track component is ghost data used to state
  ordering properties.
-/

namespace Mimi

/-- A last.fm track record as consumed by mimi.py. -/
structure Track where
  name : String
  artist : String
  uts : Int
  url : String
deriving DecidableEq, Repr

/-- The external world: page fetching (tier 1) and the YouTube search API
(tier 2). `fetchPage u` returns the document-ordered list of
`data-youtube-url` attribute values of the page at `u`, or an error for a
network/parse failure. `fetchSearch q` returns the parsed `items` of the
search response for query `q` (each item's `id` object collapsed to its
optional `videoId`), or an error for a network/parse failure. -/
structure World where
  fetchPage : String → Except Unit (List String)
  fetchSearch : String → Except Unit (List (Option String))

/-- The xpath `(//@data-youtube-url)[last()]` over the attribute values in
document order: at most one node, the last one. -/
def xpathLastAttr (attrs : List String) : List String :=
  match attrs.getLast? with
  | none => []
  | some a => [a]

/-- YoutubeLinker._get_from_lastfm: fetch the track's last.fm page, take the
links returned by the xpath query, return None if empty else links[0]. -/
def get_from_lastfm (w : World) (track : Track) : Except Unit (Option String) := do
  let attrs ← w.fetchPage track.url
  let links := xpathLastAttr attrs
  match links with
  | [] => pure none
  | l :: _ => pure (some l)

/-- The canonical watch URL template with the video id substituted. -/
def video_url (video_id : String) : String :=
  "https://www.youtube.com/watch?v=" ++ video_id

/-- The search query string built by _get_from_youtube. -/
def search_query (track : Track) : String :=
  track.name ++ " " ++ track.artist

/-- The `while i < max_results` scan of _get_from_youtube, with
max_results = 5, written with the remaining iteration count `fuel`
(invariant: i + fuel = 5). `items[i]?` = none is Python's IndexError on
`req.json()['items'][i]`; `fuel = 0` is the `while...else` branch setting
video_url = None after exhausting all 5 candidates. -/
def searchScan (items : List (Option String)) (i : Nat) : Nat → Except Unit (Option String)
  | 0 => Except.ok none
  | fuel + 1 =>
    match items[i]? with
    | none => Except.error ()
    | some none => searchScan items (i + 1) fuel
    | some (some vid) => Except.ok (some (video_url vid))

/-- YoutubeLinker._get_from_youtube: return None immediately when no
youtube_key is configured; otherwise query `"{name} {author}"`, request at
most 5 results and scan them in order for the first item whose id carries
a videoId. -/
def get_from_youtube (w : World) (key : Option String) (track : Track) :
    Except Unit (Option String) :=
  match key with
  | none => Except.ok none
  | some _ => do
    let items ← w.fetchSearch (search_query track)
    searchScan items 0 5

/-- YoutubeLinker.get_youtube_url: try last.fm first, fall back to the
YouTube search only when the first tier produced None. -/
def get_youtube_url (w : World) (key : Option String) (track : Track) :
    Except Unit (Option String) := do
  let url ← get_from_lastfm w track
  match url with
  | some u => pure (some u)
  | none => get_from_youtube w key track

/-- The body of the `for track in reversed(tracks)` loop of load_tracks,
given the list still to process and the enqueue calls issued so far.
A None url is skipped (`continue`); a resolver exception propagates. -/
def loadLoop (resolve : Track → Except Unit (Option String)) :
    List Track → List (Track × String) → Except Unit (List (Track × String))
  | [], acc => Except.ok acc
  | t :: ts, acc => do
    let url ← resolve t
    match url with
    | none => loadLoop resolve ts acc
    | some u => loadLoop resolve ts (acc ++ [(t, u)])

/-- load_tracks(tracks, last_ts, vlcrc, youtube_linker): returns the new
watermark together with the instrumented sequence of enqueue calls. The
watermark for a non-empty batch is `int(tracks[0]['date']['uts']) + 1`,
computed before the loop; the loop runs over `reversed(tracks)`. -/
def load_tracks (tracks : List Track) (last_ts : Int)
    (resolve : Track → Except Unit (Option String)) :
    Except Unit (Int × List (Track × String)) :=
  match tracks with
  | [] => Except.ok (last_ts, [])
  | t :: _ => do
    let trace ← loadLoop resolve tracks.reverse []
    Except.ok (t.uts + 1, trace)

/-- The VLC rc telnet connection: `some msgs` is an open connection on
which the listed messages were written, `none` is a closed connection
(`self.telnet = None` after `__exit__`). -/
structure VLCrc where
  telnet : Option (List String)
deriving DecidableEq, Repr

/-- VLCrc.__init__: open the telnet connection. -/
def VLCrc.init : VLCrc := { telnet := some [] }

/-- VLCrc.__exit__: close the connection and null the handle. -/
def VLCrc.exit (_v : VLCrc) : VLCrc := { telnet := none }

/-- VLCrc.enqueue: write the enqueue command on the open connection. -/
def VLCrc.enqueue (v : VLCrc) (youtube_url : String) : VLCrc :=
  { telnet := v.telnet.map (fun msgs => msgs ++ ["enqueue " ++ youtube_url ++ "\n"]) }

/-- The configuration values main reads (already converted to seconds). -/
structure Config where
  active_window_s : Int
  awake_s : Int
  asleep_s : Int
deriving DecidableEq, Repr

/-- The sleep duration main picks from the activity signal: a pure
function of the wall clock and the watermark only. -/
def sleepDuration (cfg : Config) (now wm : Int) : Int :=
  if now - wm < cfg.active_window_s then cfg.awake_s else cfg.asleep_s

/-- The body of one iteration of main's `while True` loop, inside the
`with VLCrc(...)` block: fetch tracks since the watermark, run
load_tracks, recompute the activity signal from the updated watermark and
the wall clock, and pick the sleep duration. Returns (new watermark,
enqueue calls, sleep seconds); an exception from fetching or resolving
propagates. -/
def cycleBody (cfg : Config) (resolve : Track → Except Unit (Option String))
    (fetch : Int → Except Unit (List Track)) (last_ts now : Int) :
    Except Unit (Int × List (Track × String) × Int) := do
  let tracks ← fetch last_ts
  let r ← load_tracks tracks last_ts resolve
  if now - r.1 < cfg.active_window_s then
    Except.ok (r.1, r.2, cfg.awake_s)
  else
    Except.ok (r.1, r.2, cfg.asleep_s)

/-- The observable state after one cycle: the outcome of the body and the
final state of the connection opened at cycle start. -/
structure CycleResult where
  outcome : Except Unit (Int × List (Track × String) × Int)
  conn : VLCrc
deriving Repr

/-- One cycle of main's loop with the `with`-statement semantics made
explicit: the connection is opened, the body runs (its enqueue calls are
writes on the connection), and `__exit__` runs on every path, normal or
exceptional, before the cycle ends. The sleep itself is erased here to the
returned duration; the ordering of the sleep relative to the connection
release is modelled separately by `cycleEvents`, since in the source the
`time.sleep` calls sit inside the `with` block. -/
def cycle (cfg : Config) (resolve : Track → Except Unit (Option String))
    (fetch : Int → Except Unit (List Track)) (last_ts now : Int) : CycleResult :=
  let v := VLCrc.init
  match cycleBody cfg resolve fetch last_ts now with
  | Except.error e => { outcome := Except.error e, conn := VLCrc.exit v }
  | Except.ok (ts2, trace, d) =>
    let v2 := trace.foldl (fun vc p => VLCrc.enqueue vc p.2) v
    { outcome := Except.ok (ts2, trace, d), conn := VLCrc.exit v2 }

/-- An observable event of one iteration of main's while-body, in the order
the source's statements produce them. -/
inductive Ev where
  | connOpen : Ev
  | enqueue : String → Ev
  | sleep : Int → Ev
  | connClose : Ev
deriving DecidableEq, Repr

/-- The `for track in reversed(tracks)` loop of load_tracks as the ordered
enqueue events it writes on the connection. When a resolution raises, the
events already written are kept and the error propagates (mimi.py has no
handler around get_youtube_url). -/
def loadLoopEv (resolve : Track → Except Unit (Option String)) :
    List Track → List Ev → List Ev × Except Unit Unit
  | [], acc => (acc, Except.ok ())
  | t :: ts, acc =>
    match resolve t with
    | Except.error e => (acc, Except.error e)
    | Except.ok none => loadLoopEv resolve ts acc
    | Except.ok (some u) => loadLoopEv resolve ts (acc ++ [Ev.enqueue u])

/-- One iteration of main's while-body as its ordered observable events,
following the statement order of mimi.py:233-252. The `with VLCrc(...)`
block opens the connection first and closes it when the block is left,
normally or on an exception; the fetch, the enqueue writes AND the
`time.sleep` call are all inside the block, so on a completed cycle the
sleep event precedes the close event, while an exception skips the sleep
and still closes the connection. Also returns the watermark outcome:
`tracks[0].uts + 1` for a non-empty batch, unchanged for an empty one,
the error when fetching or resolving raised. -/
def cycleEvents (cfg : Config) (resolve : Track → Except Unit (Option String))
    (fetch : Int → Except Unit (List Track)) (last_ts now : Int) :
    List Ev × Except Unit Int :=
  match fetch last_ts with
  | Except.error e => ([Ev.connOpen, Ev.connClose], Except.error e)
  | Except.ok tracks =>
    let ts2 := match tracks with
      | [] => last_ts
      | t :: _ => t.uts + 1
    match loadLoopEv resolve tracks.reverse [] with
    | (evs, Except.error e) =>
      (Ev.connOpen :: evs ++ [Ev.connClose], Except.error e)
    | (evs, Except.ok ()) =>
      (Ev.connOpen :: evs ++ [Ev.sleep (sleepDuration cfg now ts2), Ev.connClose],
       Except.ok ts2)

/-! ### Concrete fixtures used by witnesses and counterexamples -/

/-- A concrete track with timestamp 100 ("A" in the spec's ordering scenario). -/
def trackA : Track := { name := "A", artist := "x", uts := 100, url := "pageA" }

/-- A concrete track with timestamp 200 ("B" in the spec's ordering scenario). -/
def trackB : Track := { name := "B", artist := "x", uts := 200, url := "pageB" }

/-- A resolver that succeeds on every track, returning its page url as the video url. -/
def resolveUrl : Track → Except Unit (Option String) := fun t => Except.ok (some t.url)

/-- A resolver that returns an absent result on every track. -/
def resolveNone : Track → Except Unit (Option String) := fun _ => Except.ok none

/-- A world whose pages embed two video links and whose search returns nothing. -/
def wEmbedTwo : World :=
  { fetchPage := fun _ => Except.ok ["embed1", "embed2"]
    fetchSearch := fun _ => Except.ok [] }

/-- A search oracle that always answers with an empty item list. -/
def searchNever : String → Except Unit (List (Option String)) := fun _ => Except.ok []

/-- A world with no embedded links whose search returns five items, the third
being the first to carry a video id. -/
def wSearchFive : World :=
  { fetchPage := fun _ => Except.ok []
    fetchSearch := fun _ => Except.ok [none, none, some "vid3", none, none] }

/-- A world with no embedded links whose search response has zero items:
the HTTP call and JSON parse succeed but `items` is shorter than 5. -/
def wSearchEmpty : World :=
  { fetchPage := fun _ => Except.ok []
    fetchSearch := fun _ => Except.ok [] }

/-- A world with no embedded links whose search response has two items,
neither carrying a video id. -/
def wSearchShort : World :=
  { fetchPage := fun _ => Except.ok []
    fetchSearch := fun _ => Except.ok [none, none] }

/-- A concrete configuration: 30 min activity window, 1 min awake poll,
10 min asleep poll (in seconds). -/
def cfg0 : Config := { active_window_s := 1800, awake_s := 60, asleep_s := 600 }

/-- A track source returning an empty batch. -/
def fetchEmpty : Int → Except Unit (List Track) := fun _ => Except.ok []

/-- A track source returning the singleton batch [trackA]. -/
def fetchOne : Int → Except Unit (List Track) := fun _ => Except.ok [trackA]

/-! ### Helper lemmas -/

@[simp] lemma bind_ok_eq {α β : Type} (a : α) (f : α → Except Unit β) :
    (Except.ok a : Except Unit α) >>= f = f a := rfl

@[simp] lemma bind_error_eq {α β : Type} (f : α → Except Unit β) :
    (Except.error () : Except Unit α) >>= f = Except.error () := rfl

/-- The enqueue call one track contributes when its resolution succeeds. -/
def resolvedPair (resolve : Track → Except Unit (Option String)) (t : Track) :
    Option (Track × String) :=
  match resolve t with
  | Except.ok (some u) => some (t, u)
  | _ => none

lemma loadLoop_ok (resolve : Track → Except Unit (Option String)) (ts : List Track)
    (acc : List (Track × String)) (h : ∀ t ∈ ts, ∃ r, resolve t = Except.ok r) :
    loadLoop resolve ts acc = Except.ok (acc ++ ts.filterMap (resolvedPair resolve)) := by
  induction ts generalizing acc with
  | nil => simp [loadLoop]
  | cons t ts ih =>
    obtain ⟨r, hr⟩ := h t (List.mem_cons_self t ts)
    have hrest : ∀ x ∈ ts, ∃ r, resolve x = Except.ok r :=
      fun x hx => h x (List.mem_cons_of_mem t hx)
    cases r with
    | none =>
      simp only [loadLoop, hr, bind_ok_eq, resolvedPair, List.filterMap_cons]
      rw [ih acc hrest]
    | some u =>
      simp only [loadLoop, hr, bind_ok_eq, resolvedPair, List.filterMap_cons]
      rw [ih (acc ++ [(t, u)]) hrest]
      simp

lemma filterMap_resolvedPair_all_some (resolve : Track → Except Unit (Option String))
    (l : List Track) (h : ∀ t ∈ l, ∃ u, resolve t = Except.ok (some u)) :
    (l.filterMap (resolvedPair resolve)).map Prod.fst = l := by
  induction l with
  | nil => simp
  | cons t ts ih =>
    obtain ⟨u, hu⟩ := h t (List.mem_cons_self t ts)
    simp only [List.filterMap_cons, resolvedPair, hu, List.map_cons]
    rw [ih (fun x hx => h x (List.mem_cons_of_mem t hx))]

lemma filterMap_resolvedPair_all_none (resolve : Track → Except Unit (Option String))
    (l : List Track) (h : ∀ t ∈ l, resolve t = Except.ok none) :
    l.filterMap (resolvedPair resolve) = [] := by
  rw [List.filterMap_eq_nil_iff]
  intro t ht
  simp [resolvedPair, h t ht]

lemma searchScan_full (items : List (Option String)) :
    ∀ fuel i, i + fuel = 5 → 5 ≤ items.length →
      searchScan items i fuel =
        Except.ok (Option.map video_url
          (((items.drop i).take fuel).findSome? (fun o => o))) := by
  intro fuel
  induction fuel with
  | zero => intro i _ _; simp [searchScan]
  | succ fuel ih =>
    intro i hi hlen
    have hilt : i < items.length := by omega
    have hget : items[i]? = some items[i] := List.getElem?_eq_getElem hilt
    rw [List.drop_eq_getElem_cons hilt, List.take_succ_cons, List.findSome?_cons]
    cases hx : items[i] with
    | none =>
      simp only [searchScan, hget, hx]
      exact ih (i + 1) (by omega) hlen
    | some vid => simp [searchScan, hget, hx]

lemma searchScan_short (items : List (Option String)) (hlen : items.length < 5)
    (hnone : ∀ x ∈ items, x = none) :
    ∀ fuel i, i + fuel = 5 → i ≤ items.length → searchScan items i fuel = Except.error () := by
  intro fuel
  induction fuel with
  | zero => intro i hi hle; omega
  | succ fuel ih =>
    intro i hi hle
    rcases Nat.lt_or_ge i items.length with hlt | hge
    · have hget : items[i]? = some items[i] := List.getElem?_eq_getElem hlt
      have hx : items[i] = none := hnone _ (List.getElem_mem hlt)
      simp only [searchScan, hget, hx]
      exact ih (i + 1) (by omega) (by omega)
    · simp [searchScan, List.getElem?_eq_none hge]

lemma cycle_outcome (cfg : Config) (resolve : Track → Except Unit (Option String))
    (fetch : Int → Except Unit (List Track)) (last_ts now : Int) :
    (cycle cfg resolve fetch last_ts now).outcome = cycleBody cfg resolve fetch last_ts now := by
  cases h : cycleBody cfg resolve fetch last_ts now with
  | error e => simp [cycle, h]
  | ok x =>
    obtain ⟨ts2, trace, d⟩ := x
    simp [cycle, h]

lemma cycleBody_ok_inv (cfg : Config) (resolve : Track → Except Unit (Option String))
    (fetch : Int → Except Unit (List Track)) (last_ts now ts2 : Int)
    (trace : List (Track × String)) (d : Int)
    (h : cycleBody cfg resolve fetch last_ts now = Except.ok (ts2, trace, d)) :
    ∃ tracks, fetch last_ts = Except.ok tracks ∧
      load_tracks tracks last_ts resolve = Except.ok (ts2, trace) ∧
      d = sleepDuration cfg now ts2 := by
  cases hf : fetch last_ts with
  | error e =>
    obtain ⟨⟩ := e
    simp [cycleBody, hf] at h
  | ok tracks =>
    cases hl : load_tracks tracks last_ts resolve with
    | error e =>
      obtain ⟨⟩ := e
      simp [cycleBody, hf, hl] at h
    | ok r =>
      simp only [cycleBody, hf, hl, bind_ok_eq] at h
      refine ⟨tracks, rfl, ?_⟩
      by_cases hc : now - r.1 < cfg.active_window_s
      · rw [if_pos hc] at h
        simp only [Except.ok.injEq, Prod.mk.injEq] at h
        obtain ⟨h1, h2, h3⟩ := h
        subst h1
        subst h2
        subst h3
        exact ⟨hl, by simp [sleepDuration, hc]⟩
      · rw [if_neg hc] at h
        simp only [Except.ok.injEq, Prod.mk.injEq] at h
        obtain ⟨h1, h2, h3⟩ := h
        subst h1
        subst h2
        subst h3
        exact ⟨hl, by simp [sleepDuration, hc]⟩

lemma load_tracks_ok_watermark (tracks : List Track) (last_ts : Int)
    (resolve : Track → Except Unit (Option String)) (ts2 : Int)
    (trace : List (Track × String))
    (h : load_tracks tracks last_ts resolve = Except.ok (ts2, trace)) :
    ts2 = last_ts ∨ ∃ t ts, tracks = t :: ts ∧ ts2 = t.uts + 1 := by
  cases tracks with
  | nil =>
    simp only [load_tracks, Except.ok.injEq, Prod.mk.injEq] at h
    exact Or.inl h.1.symm
  | cons t ts =>
    simp only [load_tracks] at h
    cases hl : loadLoop resolve (t :: ts).reverse [] with
    | error e =>
      obtain ⟨⟩ := e
      rw [hl] at h
      simp at h
    | ok tr =>
      rw [hl] at h
      simp only [bind_ok_eq, Except.ok.injEq, Prod.mk.injEq] at h
      exact Or.inr ⟨t, ts, rfl, h.1.symm⟩

/-! ### Claim theorems -/

/-- C1: for every non-empty fetched batch processed in a cycle, the watermark
returned by load_tracks equals the maximum playedAt timestamp over the batch
plus 1: given the batch is ordered newest first, its first element `t`
carries the maximum timestamp (`∀ x ∈ tracks, x.uts ≤ t.uts`, attained at
`t`), and the new watermark is `t.uts + 1`. -/
theorem watermark_eq_batch_max_succ (tracks : List Track) (t : Track) (ts : List Track)
    (last_ts : Int) (resolve : Track → Except Unit (Option String))
    (hbatch : tracks = t :: ts)
    (hord : tracks.Pairwise (fun a b => b.uts ≤ a.uts))
    (hres : ∀ x ∈ tracks, ∃ r, resolve x = Except.ok r) :
    ∃ trace, load_tracks tracks last_ts resolve = Except.ok (t.uts + 1, trace) ∧
      ∀ x ∈ tracks, x.uts ≤ t.uts := by
  subst hbatch
  have hrev : ∀ x ∈ (t :: ts).reverse, ∃ r, resolve x = Except.ok r :=
    fun x hx => hres x (List.mem_reverse.mp hx)
  refine ⟨(t :: ts).reverse.filterMap (resolvedPair resolve), ?_, ?_⟩
  · simp only [load_tracks]
    rw [loadLoop_ok resolve _ [] hrev]
    simp
  · intro x hx
    rcases List.mem_cons.mp hx with h | h
    · subst h; exact le_refl _
    · exact (List.pairwise_cons.mp hord).1 x h

/-- Witness for C1: the concrete newest-first batch [trackB (ts 200),
trackA (ts 100)] with a total resolver yields watermark 201. -/
theorem watermark_eq_batch_max_succ_witness :
    ∃ trace, load_tracks [trackB, trackA] 0 resolveUrl = Except.ok (201, trace) ∧
      ∀ x ∈ [trackB, trackA], x.uts ≤ trackB.uts :=
  watermark_eq_batch_max_succ [trackB, trackA] trackB [trackA] 0 resolveUrl rfl
    (by decide) (fun x _ => ⟨some x.url, rfl⟩)

/-- C2: for a batch ordered newest first in which every event resolves to a
URL, the enqueue calls happen in chronological (oldest-first) order: the
enqueued tracks are exactly the reversed batch, their timestamps are
non-decreasing along the call sequence, and the watermark becomes the head
timestamp plus 1. -/
theorem enqueue_order_chronological (tracks : List Track) (t : Track) (ts : List Track)
    (last_ts : Int) (resolve : Track → Except Unit (Option String))
    (hbatch : tracks = t :: ts)
    (hord : tracks.Pairwise (fun a b => b.uts ≤ a.uts))
    (hres : ∀ x ∈ tracks, ∃ u, resolve x = Except.ok (some u)) :
    ∃ trace, load_tracks tracks last_ts resolve = Except.ok (t.uts + 1, trace) ∧
      trace.map Prod.fst = tracks.reverse ∧
      trace.Pairwise (fun a b => a.1.uts ≤ b.1.uts) := by
  subst hbatch
  have hrev : ∀ x ∈ (t :: ts).reverse, ∃ r, resolve x = Except.ok r := by
    intro x hx
    obtain ⟨u, hu⟩ := hres x (List.mem_reverse.mp hx)
    exact ⟨some u, hu⟩
  have hmap : ((t :: ts).reverse.filterMap (resolvedPair resolve)).map Prod.fst
      = (t :: ts).reverse :=
    filterMap_resolvedPair_all_some resolve _ (fun x hx => hres x (List.mem_reverse.mp hx))
  refine ⟨(t :: ts).reverse.filterMap (resolvedPair resolve), ?_, hmap, ?_⟩
  · simp only [load_tracks]
    rw [loadLoop_ok resolve _ [] hrev]
    simp
  · have hrevord : (t :: ts).reverse.Pairwise (fun a b => a.uts ≤ b.uts) :=
      List.pairwise_reverse.mpr hord
    rw [← hmap] at hrevord
    exact (List.pairwise_map (f := Prod.fst) (R := fun a b : Track => a.uts ≤ b.uts)).mp hrevord

/-- Witness for C2: the spec's scenario. The batch is
[{name B, ts 200}, {name A, ts 100}] (newest first) and both events resolve;
the sink observes A's url before B's url and the watermark becomes 201. -/
theorem enqueue_order_chronological_witness :
    (∃ trace, load_tracks [trackB, trackA] 0 resolveUrl = Except.ok (201, trace) ∧
      trace.map Prod.fst = [trackB, trackA].reverse ∧
      trace.Pairwise (fun a b => a.1.uts ≤ b.1.uts)) ∧
    load_tracks [trackB, trackA] 0 resolveUrl =
      Except.ok (201, [(trackA, "pageA"), (trackB, "pageB")]) :=
  ⟨enqueue_order_chronological [trackB, trackA] trackB [trackA] 0 resolveUrl rfl
      (by decide) (fun x _ => ⟨x.url, rfl⟩), rfl⟩

/-- C10: for every non-empty batch, the watermark returned by load_tracks is
the head (newest) timestamp plus 1 regardless of resolution outcomes; in
particular when every event resolves to absent the watermark still advances
and nothing is enqueued. -/
theorem watermark_advances_regardless_of_resolution (tracks : List Track) (t : Track)
    (ts : List Track) (last_ts : Int) (resolve : Track → Except Unit (Option String))
    (hbatch : tracks = t :: ts)
    (hres : ∀ x ∈ tracks, ∃ r, resolve x = Except.ok r) :
    ∃ trace, load_tracks tracks last_ts resolve = Except.ok (t.uts + 1, trace) ∧
      ((∀ x ∈ tracks, resolve x = Except.ok none) → trace = []) := by
  subst hbatch
  have hrev : ∀ x ∈ (t :: ts).reverse, ∃ r, resolve x = Except.ok r :=
    fun x hx => hres x (List.mem_reverse.mp hx)
  refine ⟨(t :: ts).reverse.filterMap (resolvedPair resolve), ?_, ?_⟩
  · simp only [load_tracks]
    rw [loadLoop_ok resolve _ [] hrev]
    simp
  · intro hall
    exact filterMap_resolvedPair_all_none resolve _ (fun x hx => hall x (List.mem_reverse.mp hx))

/-- Witness for C10: a batch whose two events both resolve to absent still
moves the watermark to 201, with an empty enqueue trace. -/
theorem watermark_advances_regardless_of_resolution_witness :
    ∃ trace, load_tracks [trackB, trackA] 0 resolveNone = Except.ok (201, trace) ∧
      ((∀ x ∈ [trackB, trackA], resolveNone x = Except.ok none) → trace = []) :=
  watermark_advances_regardless_of_resolution [trackB, trackA] trackB [trackA] 0 resolveNone
    rfl (fun _ _ => ⟨none, rfl⟩)

/-- C3: if tier-1 resolution (the track's page) yields one or more embedded
video-link attributes, get_youtube_url returns the last match in document
order, and the tier-2 search is never invoked: the result is the same for
every search key and every search oracle. -/
theorem lastfm_link_shortcircuits_search (w : World) (track : Track)
    (attrs : List String) (l : String) (key : Option String)
    (f : String → Except Unit (List (Option String)))
    (hpage : w.fetchPage track.url = Except.ok attrs)
    (hlast : attrs.getLast? = some l) :
    get_youtube_url { w with fetchSearch := f } key track = Except.ok (some l) := by
  simp only [get_youtube_url, get_from_lastfm, hpage, bind_ok_eq, xpathLastAttr, hlast]
  rfl

/-- Witness for C3: a page embedding two links resolves to the second
(last) one, with the search oracle set to an arbitrary disabled stub. -/
theorem lastfm_link_shortcircuits_search_witness :
    get_youtube_url { wEmbedTwo with fetchSearch := searchNever } (some "key") trackA =
      Except.ok (some "embed2") :=
  lastfm_link_shortcircuits_search wEmbedTwo trackA ["embed1", "embed2"] "embed2"
    (some "key") searchNever rfl rfl

/-- C4: tier-2 contract. With no search credential, get_from_youtube returns
absent immediately for every world (so no search call can influence it).
With a credential and a search response of at least 5 items for the query
"name artist", it returns the canonical watch URL built from the first of
the 5 candidates carrying a video id, and absent when none of them does. -/
theorem search_fallback_contract (w : World) (track : Track) (k : String)
    (items : List (Option String))
    (hsearch : w.fetchSearch (search_query track) = Except.ok items)
    (hlen : 5 ≤ items.length) :
    (∀ w2 : World, get_from_youtube w2 none track = Except.ok none) ∧
    get_from_youtube w (some k) track =
      Except.ok (Option.map video_url ((items.take 5).findSome? (fun o => o))) := by
  refine ⟨fun w2 => rfl, ?_⟩
  simp only [get_from_youtube, hsearch, bind_ok_eq]
  have h := searchScan_full items 5 0 rfl hlen
  simpa using h

/-- Witness for C4: a 5-item response whose third item is the first to carry
a video id resolves to that id's watch URL. -/
theorem search_fallback_contract_witness :
    ((∀ w2 : World, get_from_youtube w2 none trackA = Except.ok none) ∧
      get_from_youtube wSearchFive (some "key") trackA =
        Except.ok (Option.map video_url
          (([none, none, some "vid3", none, none].take 5).findSome? (fun o => o)))) ∧
    get_from_youtube wSearchFive (some "key") trackA =
      Except.ok (some "https://www.youtube.com/watch?v=vid3") :=
  ⟨search_fallback_contract wSearchFive trackA "key" [none, none, some "vid3", none, none]
      rfl (by decide), rfl⟩

/-- Counterexample to C5: the claim says any network or parse failure during
resolution (including a short search response) is treated as an absent
result and never aborts the batch. But with no embedded link, a configured
search key, and a search response whose item list is empty (HTTP and JSON
succeed, `items` has fewer than 5 entries), indexing `items[0]` raises
(IndexError): resolution returns an error, and load_tracks on the batch
[trackB, trackA] aborts instead of processing the remaining event. -/
theorem resolution_failure_raises_cex :
    get_youtube_url wSearchEmpty (some "k") trackA = Except.error () ∧
    load_tracks [trackB, trackA] 0 (fun t => get_youtube_url wSearchEmpty (some "k") t) =
      Except.error () :=
  ⟨rfl, rfl⟩

/-- C5 amended: exhausting the five candidates without a video id is an
absent result (see C4), but a failure such as a short search response is
raised as an error, not treated as absent: it propagates out of
get_youtube_url and aborts load_tracks for the whole remaining batch. -/
theorem resolution_failure_aborts_batch (w : World) (k : String) (t : Track)
    (items : List (Option String))
    (hpage : w.fetchPage t.url = Except.ok [])
    (hsearch : w.fetchSearch (search_query t) = Except.ok items)
    (hlen : items.length < 5)
    (hnone : ∀ x ∈ items, x = none) :
    get_youtube_url w (some k) t = Except.error () ∧
    ∀ (ts : List Track) (last_ts : Int),
      load_tracks (ts ++ [t]) last_ts (fun x => get_youtube_url w (some k) x) =
        Except.error () := by
  have hres : get_youtube_url w (some k) t = Except.error () := by
    simp only [get_youtube_url, get_from_lastfm, hpage, bind_ok_eq, xpathLastAttr,
      List.getLast?_nil]
    simp only [get_from_youtube, hsearch, bind_ok_eq]
    exact searchScan_short items hlen hnone 5 0 rfl (Nat.zero_le _)
  refine ⟨hres, ?_⟩
  intro ts last_ts
  cases hts : ts ++ [t] with
  | nil => simp at hts
  | cons a l =>
    have hrevc : (a :: l).reverse = t :: ts.reverse := by
      rw [← hts]
      simp
    simp only [load_tracks]
    rw [hrevc]
    simp only [loadLoop, hres, bind_error_eq]

/-- Witness for the amended C5: a two-item search response with no video id
makes resolution raise, and a batch ending in that track aborts. -/
theorem resolution_failure_aborts_batch_witness :
    get_youtube_url wSearchShort (some "k") trackA = Except.error () ∧
    load_tracks ([trackB] ++ [trackA]) 0
      (fun x => get_youtube_url wSearchShort (some "k") x) = Except.error () :=
  ⟨(resolution_failure_aborts_batch wSearchShort "k" trackA [none, none] rfl rfl
      (by decide) (by decide)).1,
   (resolution_failure_aborts_batch wSearchShort "k" trackA [none, none] rfl rfl
      (by decide) (by decide)).2 [trackB] 0⟩

/-- C6: a cycle whose fetched batch is empty leaves the watermark unchanged,
enqueues nothing, and still reaches the sleep step with the duration picked
from the activity signal. -/
theorem empty_batch_cycle (cfg : Config) (resolve : Track → Except Unit (Option String))
    (fetch : Int → Except Unit (List Track)) (last_ts now : Int)
    (hfetch : fetch last_ts = Except.ok ([] : List Track)) :
    (cycle cfg resolve fetch last_ts now).outcome =
      Except.ok (last_ts, [], sleepDuration cfg now last_ts) := by
  rw [cycle_outcome]
  simp only [cycleBody, hfetch, bind_ok_eq, load_tracks, sleepDuration]
  by_cases hc : now - last_ts < cfg.active_window_s
  · rw [if_pos hc, if_pos hc]
  · rw [if_neg hc, if_neg hc]

/-- Witness for C6: an empty fetch at watermark 50 keeps the watermark at 50
with no enqueue calls and a computed sleep duration. -/
theorem empty_batch_cycle_witness :
    (cycle cfg0 resolveUrl fetchEmpty 50 100).outcome =
      Except.ok (50, [], sleepDuration cfg0 100 50) :=
  empty_batch_cycle cfg0 resolveUrl fetchEmpty 50 100 rfl

/-- C7: the watermark is monotonically non-decreasing across cycles: when
every event in the fetched batch has playedAt at or after the watermark the
fetch was issued with, the watermark after a completed cycle is at least
its value before the cycle. -/
theorem watermark_monotone (cfg : Config) (resolve : Track → Except Unit (Option String))
    (fetch : Int → Except Unit (List Track)) (last_ts now ts2 : Int)
    (trace : List (Track × String)) (d : Int)
    (hf : ∀ tracks, fetch last_ts = Except.ok tracks → ∀ x ∈ tracks, last_ts ≤ x.uts)
    (h : (cycle cfg resolve fetch last_ts now).outcome = Except.ok (ts2, trace, d)) :
    last_ts ≤ ts2 := by
  rw [cycle_outcome] at h
  obtain ⟨tracks, hfe, hl, _⟩ := cycleBody_ok_inv cfg resolve fetch last_ts now ts2 trace d h
  rcases load_tracks_ok_watermark tracks last_ts resolve ts2 trace hl with h1 | ⟨t, ts, hts, h2⟩
  · omega
  · have hle : last_ts ≤ t.uts := hf tracks hfe t (hts ▸ List.mem_cons_self t ts)
    omega

/-- Witness for C7: a cycle starting at watermark 0 that fetches [trackA]
(ts 100 ≥ 0) completes with watermark 101 ≥ 0. -/
theorem watermark_monotone_witness :
    (cycle cfg0 resolveUrl fetchOne 0 100).outcome =
      Except.ok (101, [(trackA, "pageA")], 60) ∧ (0 : Int) ≤ 101 :=
  ⟨rfl,
   watermark_monotone cfg0 resolveUrl fetchOne 0 100 101 [(trackA, "pageA")] 60
     (by
       intro tracks htr x hx
       have hts : [trackA] = tracks := Except.ok.inj htr
       rw [← hts] at hx
       simp only [List.mem_singleton] at hx
       subst hx
       decide)
     rfl⟩

/-- C8: for a completed cycle, the sleep duration equals the configured
active interval iff (now - watermark) < activityWindow at the end of the
cycle (asleep interval otherwise), and it is exactly the pure function
sleepDuration of the wall clock and the final watermark — no persistent
mode flag. -/
theorem sleep_interval_iff_active (cfg : Config)
    (resolve : Track → Except Unit (Option String))
    (fetch : Int → Except Unit (List Track)) (last_ts now ts2 : Int)
    (trace : List (Track × String)) (d : Int)
    (hne : cfg.awake_s ≠ cfg.asleep_s)
    (h : (cycle cfg resolve fetch last_ts now).outcome = Except.ok (ts2, trace, d)) :
    (d = cfg.awake_s ↔ now - ts2 < cfg.active_window_s) ∧
    d = sleepDuration cfg now ts2 := by
  rw [cycle_outcome] at h
  obtain ⟨tracks, hfe, hl, hd⟩ := cycleBody_ok_inv cfg resolve fetch last_ts now ts2 trace d h
  subst hd
  refine ⟨?_, rfl⟩
  unfold sleepDuration
  by_cases hc : now - ts2 < cfg.active_window_s
  · simp [hc]
  · simp only [if_neg hc, iff_false_intro hc, iff_false]
    exact Ne.symm hne

/-- Witness for C8: in the completed cycle of the C7 scenario, the sleep
duration is the active interval because 100 - 101 < 1800. -/
theorem sleep_interval_iff_active_witness :
    ((60 : Int) = cfg0.awake_s ↔ (100 : Int) - 101 < cfg0.active_window_s) ∧
    (60 : Int) = sleepDuration cfg0 100 101 :=
  sleep_interval_iff_active cfg0 resolveUrl fetchOne 0 100 101 [(trackA, "pageA")] 60
    (by decide) rfl

/-- C9 (code bug): the claim — and the spec — say the playlist-sink
connection is released before the sleep step on every exit path of the
cycle body. The code contradicts this on every completed cycle: the
time.sleep calls (mimi.py:248, 252) are inside the `with VLCrc(...)` block,
so `__exit__` closes the connection only after the sleep finishes. At the
concrete failing input (empty fetch at watermark 50, now 100, awake 60s),
the cycle's event order is connOpen, sleep 60, connClose: the sleep event
strictly precedes the connection release. -/
theorem connection_outlives_sleep :
    cycleEvents cfg0 resolveUrl fetchEmpty 50 100 =
      ([Ev.connOpen, Ev.sleep 60, Ev.connClose], Except.ok 50) ∧
    (cycleEvents cfg0 resolveUrl fetchEmpty 50 100).1.indexOf (Ev.sleep 60) <
      (cycleEvents cfg0 resolveUrl fetchEmpty 50 100).1.indexOf Ev.connClose :=
  ⟨rfl, by decide⟩

end Mimi
